import Mathlib

/-
Verification of the IOCP dispatch-engine patch: the operation descriptor
model, the three posting entry points with their fallback protocol, and the
completion-key based result-interpretation contract.

Machine integers (DWORD, ULONG_PTR, long) are modelled as Nat: the code only
stores and compares them, never performs arithmetic on them, so no overflow
can occur and the widths are irrelevant.  Pointers (the handler function
pointer, the queue link, error-category addresses) are modelled as opaque Nat
identifiers.
-/

namespace WinIocp

/-- Key value RESULT_STORED: the asio constant overlapped_contains_result
referenced by the patch.  The spec fixes RAW = 0 as the default key and
RESULT_STORED as the one other defined value; asio defines the constant as 1.
All that matters below is that it differs from 0. -/
def overlapped_contains_result : Nat := 1

/-- Identifier standing for the address of asio error get_system_category(),
which the code stores (reinterpret_cast) into the Internal field. -/
def system_category_id : Nat := 0

/-- An asio error_code: a value plus a category (category modelled as an
opaque identifier, since the code stores category addresses). -/
structure error_code where
  value : Nat
  category : Nat
deriving DecidableEq, Repr

/-- The OVERLAPPED-derived operation descriptor win_iocp_operation.  Fields
Internal, InternalHigh, Offset, OffsetHigh, hEvent are the inherited
OVERLAPPED members used as result storage; next_, func_, ready_ and
completionKey_ are the members of the class itself. -/
structure win_iocp_operation where
  next_ : Nat
  func_ : Nat
  ready_ : Nat
  completionKey_ : Nat
  Internal : Nat
  InternalHigh : Nat
  Offset : Nat
  OffsetHigh : Nat
  hEvent : Nat
deriving DecidableEq, Repr

/-- Accessor completionKey() added by the patch (it returns a reference;
reads of it are this projection, writes are modelled as field updates). -/
def win_iocp_operation.completionKey (op : win_iocp_operation) : Nat :=
  op.completionKey_

/-- win_iocp_operation::reset(): clears the OVERLAPPED result fields, the
ready flag, and (added by the patch) the completion key.  The assignment
Internal = 0 sits immediately above the visible patch context; the spec
sentence that reset clears the result fields covers it. -/
def win_iocp_operation.reset (op : win_iocp_operation) : win_iocp_operation :=
  { op with
    Internal := 0
    InternalHigh := 0
    Offset := 0
    OffsetHigh := 0
    hEvent := 0
    ready_ := 0
    completionKey_ := 0 }

/-- The protected constructor win_iocp_operation(func): initialises next_(0),
func_(func), completionKey_(0), then calls reset().  The OVERLAPPED fields
hold arbitrary values before reset overwrites them; 0 is used as the
placeholder here since reset assigns every such field. -/
def win_iocp_operation.mk_op (func : Nat) : win_iocp_operation :=
  win_iocp_operation.reset
    { next_ := 0
      func_ := func
      ready_ := 0
      completionKey_ := 0
      Internal := 0
      InternalHigh := 0
      Offset := 0
      OffsetHigh := 0
      hEvent := 0 }

/-- InterlockedCompareExchange(dest, exchange, comparand): returns the prior
value of dest paired with the new value of dest (dest becomes exchange
exactly when its prior value equals comparand). -/
def interlockedCompareExchange (dest exchange comparand : Nat) : Nat × Nat :=
  if dest = comparand then (dest, exchange) else (dest, dest)

/-- One packet on the kernel completion port, as supplied to
PostQueuedCompletionStatus: byte count, completion key, and the posted
operation (the OVERLAPPED pointer, here a snapshot of the descriptor). -/
structure Packet where
  bytes : Nat
  key : Nat
  op : win_iocp_operation
deriving DecidableEq, Repr

/-- The dispatch-engine state visible to the patched functions: the kernel
port contents, the fallback queue completed_ops_, and the atomic
dispatch_required_ flag.  The dispatch_mutex_ guards completed_ops_; in this
sequential embedding each function body is one atomic step, so the lock has
no separate representation. -/
structure win_iocp_io_context where
  port : List Packet
  completed_ops_ : List win_iocp_operation
  dispatch_required_ : Nat
deriving DecidableEq, Repr

/-- PostQueuedCompletionStatus: the kernel either accepts the packet,
appending it to the port (ok = true), or reports resource exhaustion and
leaves the port unchanged (ok = false).  The outcome ok is an input because
the kernel decides it nondeterministically. -/
def postQueuedCompletionStatus (ctx : win_iocp_io_context) (ok : Bool)
    (bytes key : Nat) (op : win_iocp_operation) :
    Bool × win_iocp_io_context :=
  if ok then (true, { ctx with port := ctx.port ++ [⟨bytes, key, op⟩] }) else (false, ctx)

/-- win_iocp_io_context::post_deferred_completion(op), as patched: flag the
operation as ready, then enqueue it on the port with key op->completionKey();
on failure push it onto completed_ops_ under the dispatch mutex and set
dispatch_required_.  Returns the new engine state and the descriptor as left
by the call (the C++ mutates it through the pointer). -/
def post_deferred_completion (ctx : win_iocp_io_context)
    (op : win_iocp_operation) (postOk : Bool) :
    win_iocp_io_context × win_iocp_operation :=
  -- Flag the operation as ready.
  let op1 := { op with ready_ := 1 }
  -- Enqueue the operation on the I/O completion port.
  let pr := postQueuedCompletionStatus ctx postOk 0 op1.completionKey op1
  if pr.1 then (pr.2, op1)
  else
    -- Out of resources. Put on completed queue instead.
    ({ pr.2 with
        completed_ops_ := pr.2.completed_ops_ ++ [op1]
        dispatch_required_ := 1 }, op1)

/-- win_iocp_io_context::post_deferred_completions(ops), as patched: pop each
operation, flag it ready, post it with its stored key; on a failure push the
failed operation and every remaining one onto completed_ops_ and set
dispatch_required_ (the queue is then empty, ending the loop).  postOks
supplies the kernel outcome of each successive post attempt. -/
def post_deferred_completions (ctx : win_iocp_io_context)
    (ops : List win_iocp_operation) (postOks : Nat → Bool) :
    win_iocp_io_context :=
  match ops with
  | [] => ctx
  | op :: rest =>
      let op1 := { op with ready_ := 1 }
      let pr := postQueuedCompletionStatus ctx (postOks 0) 0 op1.completionKey op1
      if pr.1 then post_deferred_completions pr.2 rest (fun n => postOks (n + 1))
      else
        { pr.2 with
          completed_ops_ := pr.2.completed_ops_ ++ (op1 :: rest)
          dispatch_required_ := 1 }

/-- win_iocp_io_context::on_pending(op), as patched: perform the interlocked
compare-exchange on ready_; when the prior value was already 1 (the claim
failed: the result is already in the descriptor) set the completion key to
RESULT_STORED and post with that stored key, falling back to completed_ops_
on exhaustion; when the claim succeeded do nothing further. -/
def on_pending (ctx : win_iocp_io_context) (op : win_iocp_operation)
    (postOk : Bool) : win_iocp_io_context × win_iocp_operation :=
  let icx := interlockedCompareExchange op.ready_ 1 0
  let op1 := { op with ready_ := icx.2 }
  if icx.1 = 1 then
    let op2 := { op1 with completionKey_ := overlapped_contains_result }
    -- Enqueue the operation on the I/O completion port.
    let pr := postQueuedCompletionStatus ctx postOk 0 op2.completionKey op2
    if pr.1 then (pr.2, op2)
    else
      -- Out of resources. Put on completed queue instead.
      ({ pr.2 with
          completed_ops_ := pr.2.completed_ops_ ++ [op2]
          dispatch_required_ := 1 }, op2)
  else (ctx, op1)

/-- win_iocp_io_context::on_completion(op, last_error, bytes_transferred), as
patched: flag ready (this assignment sits just above the visible patch
context; the spec lifecycle, enqueued descriptors carry readyFlag = 1,
covers it), store the system category, last_error and bytes_transferred into
the OVERLAPPED result fields, set the completion key to RESULT_STORED, then
post with that stored key, falling back to completed_ops_ on exhaustion. -/
def on_completion (ctx : win_iocp_io_context) (op : win_iocp_operation)
    (last_error bytes_transferred : Nat) (postOk : Bool) :
    win_iocp_io_context × win_iocp_operation :=
  let op1 := { op with ready_ := 1 }
  -- Store results in the OVERLAPPED structure.
  let op2 := { op1 with
    Internal := system_category_id
    Offset := last_error
    OffsetHigh := bytes_transferred }
  -- Enqueue the operation on the I/O completion port.
  let op3 := { op2 with completionKey_ := overlapped_contains_result }
  let pr := postQueuedCompletionStatus ctx postOk 0 op3.completionKey op3
  if pr.1 then (pr.2, op3)
  else
    ({ pr.2 with
        completed_ops_ := pr.2.completed_ops_ ++ [op3]
        dispatch_required_ := 1 }, op3)

/-- win_iocp_io_context::on_completion(op, ec, bytes_transferred), the
error_code overload, as patched: identical to the other overload except that
the stored category and value come from ec. -/
def on_completion_ec (ctx : win_iocp_io_context) (op : win_iocp_operation)
    (ec : error_code) (bytes_transferred : Nat) (postOk : Bool) :
    win_iocp_io_context × win_iocp_operation :=
  let op1 := { op with ready_ := 1 }
  -- Store results in the OVERLAPPED structure.
  let op2 := { op1 with
    Internal := ec.category
    Offset := ec.value
    OffsetHigh := bytes_transferred }
  -- Enqueue the operation on the I/O completion port.
  let op3 := { op2 with completionKey_ := overlapped_contains_result }
  let pr := postQueuedCompletionStatus ctx postOk 0 op3.completionKey op3
  if pr.1 then (pr.2, op3)
  else
    ({ pr.2 with
        completed_ops_ := pr.2.completed_ops_ ++ [op3]
        dispatch_required_ := 1 }, op3)

/-- Modelled from the spec: the decode step of the wait loop (the body of
win_iocp_io_context::do_one, which the patch does not touch).  Given a
dequeued descriptor, its completion key, and the OS-supplied status and
transfer count, produce the descriptor as left by the decode together with
the error_code and byte count handed to the handler: when the key is
RESULT_STORED the result fields of the descriptor itself are the payload,
untouched; otherwise the OS-supplied data is first saved into the result
fields and then forms the payload. -/
def decode (op : win_iocp_operation) (key : Nat)
    (last_error bytes_transferred : Nat) :
    win_iocp_operation × error_code × Nat :=
  if key = overlapped_contains_result then
    (op, ⟨op.Offset, op.Internal⟩, op.OffsetHigh)
  else
    ({ op with
        Internal := system_category_id
        Offset := last_error
        OffsetHigh := bytes_transferred },
      ⟨last_error, system_category_id⟩, bytes_transferred)

/-- Modelled from the spec: dequeuing a packet that was placed on the port by
PostQueuedCompletionStatus.  Such a packet dequeues with success status and
the byte count it was posted with; the handler payload is then produced by
the decode step from the packet key.  Returns the payload only. -/
def dequeue_payload (p : Packet) : error_code × Nat :=
  (decode p.op p.key 0 p.bytes).2

/-- Modelled from the spec: the drain step of the wait loop.  When an engine
thread observes the dispatch-required signal it claims the signal, detaches
the whole fallback queue under the dispatch mutex, and hands the detached
operations to post_deferred_completions, which re-posts each with its stored
completion key. -/
def drain_fallback (ctx : win_iocp_io_context) (postOks : Nat → Bool) :
    win_iocp_io_context :=
  post_deferred_completions
    { ctx with completed_ops_ := [], dispatch_required_ := 0 }
    ctx.completed_ops_ postOks

/-- The ready claim used by on_pending: the interlocked compare-exchange of
ready_ from 0 to 1, together with the boolean on_pending branches on.  The
claim failed exactly when the prior value was already 1 (the source test
InterlockedCompareExchange(&op->ready_, 1, 0) == 1). -/
def claimReady (op : win_iocp_operation) : Bool × win_iocp_operation :=
  let icx := interlockedCompareExchange op.ready_ 1 0
  (if icx.1 = 1 then false else true, { op with ready_ := icx.2 })

/-- C9: reset() sets the result fields (Internal, Offset, OffsetHigh, and the
remaining OVERLAPPED members) and the ready flag to 0, and leaves the handler
reference func_ and the queue link next_ unchanged.  Its type,
win_iocp_operation to win_iocp_operation, shows it touches no state outside
the descriptor. -/
theorem reset_clears_results_and_ready_frame (op : win_iocp_operation) :
    (op.reset.Internal = 0 ∧ op.reset.InternalHigh = 0 ∧
     op.reset.Offset = 0 ∧ op.reset.OffsetHigh = 0 ∧
     op.reset.hEvent = 0 ∧ op.reset.ready_ = 0) ∧
    (op.reset.func_ = op.func_ ∧ op.reset.next_ = op.next_) := by
  simp [win_iocp_operation.reset]

/-- C10: a newly constructed descriptor and a descriptor after reset() both
carry completion key 0, the RAW default. -/
theorem new_and_reset_key_is_raw (func : Nat) (op : win_iocp_operation) :
    (win_iocp_operation.mk_op func).completionKey_ = 0 ∧
    op.reset.completionKey_ = 0 := by
  simp [win_iocp_operation.mk_op, win_iocp_operation.reset]

/-- C6: post_deferred_completion unconditionally sets the ready flag to 1,
whatever its prior value, leaves the stored completion key unmodified, and
attempts the post with exactly that stored key (the packet appended on a
successful post carries key op.completionKey_). -/
theorem post_deferred_sets_ready_posts_stored_key
    (ctx : win_iocp_io_context) (op : win_iocp_operation) (postOk : Bool) :
    ((post_deferred_completion ctx op postOk).2 = { op with ready_ := 1 }) ∧
    ((post_deferred_completion ctx op postOk).2.completionKey_ =
      op.completionKey_) ∧
    ((post_deferred_completion ctx op true).1.port =
      ctx.port ++ [⟨0, op.completionKey_, { op with ready_ := 1 }⟩]) := by
  cases postOk <;>
    simp [post_deferred_completion, postQueuedCompletionStatus,
      win_iocp_operation.completionKey]

/-- C2: on_pending first performs the atomic claim on the ready flag.  When
the flag was 0 the claim succeeds and on_pending returns with the engine
state untouched (no post) and the descriptor changed only in its ready flag:
key and result fields intact.  When the flag was already 1 the claim fails
and on_pending sets the key to RESULT_STORED and posts that descriptor: on a
successful post the packet lands on the port with that key, on an exhausted
post the descriptor goes to the fallback queue. -/
theorem on_pending_claim_protocol
    (ctx : win_iocp_io_context) (op : win_iocp_operation) (postOk : Bool) :
    (op.ready_ = 0 →
      on_pending ctx op postOk = (ctx, { op with ready_ := 1 })) ∧
    (op.ready_ = 1 →
      ((on_pending ctx op postOk).2 =
        { op with completionKey_ := overlapped_contains_result } ∧
      (on_pending ctx op true).1.port =
        ctx.port ++ [⟨0, overlapped_contains_result,
          { op with completionKey_ := overlapped_contains_result }⟩] ∧
      (on_pending ctx op false).1.completed_ops_ =
        ctx.completed_ops_ ++
          [{ op with completionKey_ := overlapped_contains_result }])) := by
  constructor
  · intro h0
    cases postOk <;>
      simp [on_pending, interlockedCompareExchange, h0,
        postQueuedCompletionStatus, win_iocp_operation.completionKey]
  · intro h1
    refine ⟨?_, ?_, ?_⟩ <;>
      cases postOk <;>
        simp [on_pending, interlockedCompareExchange, h1,
          postQueuedCompletionStatus, win_iocp_operation.completionKey,
          overlapped_contains_result]

/-- Witness for on_pending_claim_protocol at a freshly constructed descriptor
(ready flag 0) and at the same descriptor with ready flag 1. -/
theorem on_pending_claim_protocol_witness :
    (on_pending ⟨[], [], 0⟩ (win_iocp_operation.mk_op 7) true =
      (⟨[], [], 0⟩, { win_iocp_operation.mk_op 7 with ready_ := 1 })) ∧
    ((on_pending ⟨[], [], 0⟩
        { win_iocp_operation.mk_op 7 with ready_ := 1 } false).1.completed_ops_ =
      [{ win_iocp_operation.mk_op 7 with
          ready_ := 1, completionKey_ := overlapped_contains_result }]) :=
  ⟨(on_pending_claim_protocol ⟨[], [], 0⟩ (win_iocp_operation.mk_op 7)
      true).1 (by decide),
   by
    have h := (on_pending_claim_protocol ⟨[], [], 0⟩
      { win_iocp_operation.mk_op 7 with ready_ := 1 } false).2 (by decide)
    simpa [win_iocp_operation.mk_op, win_iocp_operation.reset] using h.2.2⟩

/-- C3: when PostQueuedCompletionStatus reports resource exhaustion, every
posting entry point leaves the port untouched, appends the descriptor it was
posting to the fallback queue completed_ops_, and sets dispatch_required_ to
1; the entry points return only the new state (their C++ originals are void),
so no error reaches the caller. -/
theorem exhaustion_absorbed_by_fallback
    (ctx : win_iocp_io_context) (op : win_iocp_operation)
    (le bt : Nat) (ec : error_code) :
    ((post_deferred_completion ctx op false).1 =
      { ctx with
          completed_ops_ :=
            ctx.completed_ops_ ++ [(post_deferred_completion ctx op false).2]
          dispatch_required_ := 1 }) ∧
    (op.ready_ = 1 →
      (on_pending ctx op false).1 =
        { ctx with
            completed_ops_ :=
              ctx.completed_ops_ ++ [(on_pending ctx op false).2]
            dispatch_required_ := 1 }) ∧
    ((on_completion ctx op le bt false).1 =
      { ctx with
          completed_ops_ :=
            ctx.completed_ops_ ++ [(on_completion ctx op le bt false).2]
          dispatch_required_ := 1 }) ∧
    ((on_completion_ec ctx op ec bt false).1 =
      { ctx with
          completed_ops_ :=
            ctx.completed_ops_ ++ [(on_completion_ec ctx op ec bt false).2]
          dispatch_required_ := 1 }) := by
  refine ⟨?_, ?_, ?_, ?_⟩
  · simp [post_deferred_completion, postQueuedCompletionStatus]
  · intro h1
    simp [on_pending, interlockedCompareExchange, h1,
      postQueuedCompletionStatus]
  · simp [on_completion, postQueuedCompletionStatus]
  · simp [on_completion_ec, postQueuedCompletionStatus]

/-- Witness for exhaustion_absorbed_by_fallback at concrete inputs, with the
ready flag at 1 so that the on_pending conjunct applies. -/
theorem exhaustion_absorbed_by_fallback_witness :
    (on_pending ⟨[], [], 0⟩
        { win_iocp_operation.mk_op 3 with ready_ := 1 } false).1 =
      { port := [],
        completed_ops_ :=
          [(on_pending ⟨[], [], 0⟩
              { win_iocp_operation.mk_op 3 with ready_ := 1 } false).2],
        dispatch_required_ := 1 } :=
  (exhaustion_absorbed_by_fallback ⟨[], [], 0⟩
      { win_iocp_operation.mk_op 3 with ready_ := 1 } 0 0 ⟨0, 0⟩).2.1
    (by decide)

/-- C5: both on_completion overloads first store the supplied error category,
error value and byte count into the result fields, then tag the descriptor
RESULT_STORED, and only then post: the descriptor they leave behind carries
the populated fields and the RESULT_STORED key on every path, the packet of a
successful post carries the RESULT_STORED key together with that descriptor,
and an exhausted post sends the same descriptor to the fallback queue. -/
theorem on_completion_stores_then_tags_then_posts
    (ctx : win_iocp_io_context) (op : win_iocp_operation) (le bt : Nat)
    (ec : error_code) (postOk : Bool) :
    ((on_completion ctx op le bt postOk).2.Internal = system_category_id ∧
     (on_completion ctx op le bt postOk).2.Offset = le ∧
     (on_completion ctx op le bt postOk).2.OffsetHigh = bt ∧
     (on_completion ctx op le bt postOk).2.completionKey_ =
       overlapped_contains_result) ∧
    ((on_completion ctx op le bt true).1.port =
      ctx.port ++ [⟨0, overlapped_contains_result,
        (on_completion ctx op le bt true).2⟩]) ∧
    ((on_completion ctx op le bt false).1.completed_ops_ =
      ctx.completed_ops_ ++ [(on_completion ctx op le bt false).2]) ∧
    ((on_completion_ec ctx op ec bt postOk).2.Internal = ec.category ∧
     (on_completion_ec ctx op ec bt postOk).2.Offset = ec.value ∧
     (on_completion_ec ctx op ec bt postOk).2.OffsetHigh = bt ∧
     (on_completion_ec ctx op ec bt postOk).2.completionKey_ =
       overlapped_contains_result) ∧
    ((on_completion_ec ctx op ec bt true).1.port =
      ctx.port ++ [⟨0, overlapped_contains_result,
        (on_completion_ec ctx op ec bt true).2⟩]) := by
  refine ⟨?_, ?_, ?_, ?_, ?_⟩ <;>
    cases postOk <;>
      simp [on_completion, on_completion_ec, postQueuedCompletionStatus,
        win_iocp_operation.completionKey]

/-- C7: claimReady returns true exactly when it performed the 0 to 1
transition of the ready flag; on false the flag was already 1 and stays 1;
and of two successive claims on a fresh descriptor exactly the first returns
true (atomicity of the compare-exchange makes any concurrent pair linearize
to this sequence, symmetrically in the two callers). -/
theorem claimReady_exactly_one_winner
    (op : win_iocp_operation) (h : op.ready_ = 0 ∨ op.ready_ = 1) :
    ((claimReady op).1 = true ↔
      op.ready_ = 0 ∧ (claimReady op).2.ready_ = 1) ∧
    ((claimReady op).1 = false →
      op.ready_ = 1 ∧ (claimReady op).2.ready_ = 1) ∧
    (op.ready_ = 0 →
      (claimReady op).1 = true ∧ (claimReady (claimReady op).2).1 = false) := by
  rcases h with h0 | h1
  · simp [claimReady, interlockedCompareExchange, h0]
  · simp [claimReady, interlockedCompareExchange, h1]

/-- Witness for claimReady_exactly_one_winner on a freshly constructed
descriptor: the first claim wins, the second loses. -/
theorem claimReady_exactly_one_winner_witness :
    (claimReady (win_iocp_operation.mk_op 5)).1 = true ∧
    (claimReady (claimReady (win_iocp_operation.mk_op 5)).2).1 = false :=
  (claimReady_exactly_one_winner (win_iocp_operation.mk_op 5)
    (Or.inl (by decide))).2.2 (by decide)

/-- Helper for the key invariant: post_deferred_completions only adds packets
whose key is the stored completion key of the packet's own operation. -/
theorem post_deferred_completions_key_sound
    (ops : List win_iocp_operation) (ctx : win_iocp_io_context)
    (postOks : Nat → Bool) :
    ∀ p, p ∈ (post_deferred_completions ctx ops postOks).port →
      p ∈ ctx.port ∨ p.key = p.op.completionKey_ := by
  induction ops generalizing ctx postOks with
  | nil => intro p hp; exact Or.inl hp
  | cons op rest ih =>
      intro p hp
      by_cases hok : postOks 0
      · simp only [post_deferred_completions, postQueuedCompletionStatus,
          hok, if_true] at hp
        rcases ih _ _ p hp with hmem | hkey
        · simp only [List.mem_append, List.mem_singleton] at hmem
          rcases hmem with hmem | rfl
          · exact Or.inl hmem
          · exact Or.inr rfl
        · exact Or.inr hkey
      · simp only [post_deferred_completions, postQueuedCompletionStatus,
          hok, if_false, Bool.false_eq_true] at hp
        exact Or.inl hp

/-- C1: every packet a posting path adds to the port carries as its key the
stored completion key of the very descriptor it posts, for
post_deferred_completion, on_pending, both on_completion overloads, and the
fallback re-post loop post_deferred_completions; and the decode step selects
the interpretation from that key alone: with key RESULT_STORED the payload is
the stored result fields regardless of the OS-supplied data, with any other
key the payload is the OS-supplied data regardless of the descriptor
contents. -/
theorem completion_key_sole_source_of_truth
    (ctx : win_iocp_io_context) (op op' : win_iocp_operation)
    (le bt : Nat) (ec : error_code) (postOk : Bool) (key e b : Nat)
    (ops : List win_iocp_operation) (postOks : Nat → Bool) :
    (∀ p, p ∈ (post_deferred_completion ctx op postOk).1.port →
      p ∈ ctx.port ∨ p.key = p.op.completionKey_) ∧
    (∀ p, p ∈ (on_pending ctx op postOk).1.port →
      p ∈ ctx.port ∨ p.key = p.op.completionKey_) ∧
    (∀ p, p ∈ (on_completion ctx op le bt postOk).1.port →
      p ∈ ctx.port ∨ p.key = p.op.completionKey_) ∧
    (∀ p, p ∈ (on_completion_ec ctx op ec bt postOk).1.port →
      p ∈ ctx.port ∨ p.key = p.op.completionKey_) ∧
    (∀ p, p ∈ (post_deferred_completions ctx ops postOks).port →
      p ∈ ctx.port ∨ p.key = p.op.completionKey_) ∧
    (key = overlapped_contains_result →
      (decode op key e b).2 = (⟨op.Offset, op.Internal⟩, op.OffsetHigh)) ∧
    (key ≠ overlapped_contains_result →
      (decode op key e b).2 = (decode op' key e b).2 ∧
      (decode op key e b).2 = (⟨e, system_category_id⟩, b)) := by
  refine ⟨?_, ?_, ?_, ?_,
    post_deferred_completions_key_sound ops ctx postOks, ?_, ?_⟩
  · intro p hp
    cases postOk <;>
      simp only [post_deferred_completion, postQueuedCompletionStatus,
        win_iocp_operation.completionKey, if_true, if_false,
        List.mem_append, List.mem_singleton] at hp
    · exact Or.inl hp
    · rcases hp with hp | rfl
      · exact Or.inl hp
      · exact Or.inr rfl
  · intro p hp
    by_cases h1 : op.ready_ = 1
    · cases postOk
      · simp [on_pending, interlockedCompareExchange, h1,
          postQueuedCompletionStatus] at hp
        exact Or.inl hp
      · simp [on_pending, interlockedCompareExchange, h1,
          postQueuedCompletionStatus, win_iocp_operation.completionKey] at hp
        rcases hp with hp | rfl
        · exact Or.inl hp
        · exact Or.inr rfl
    · by_cases hz : op.ready_ = 0
      · simp [on_pending, interlockedCompareExchange, hz] at hp
        exact Or.inl hp
      · simp [on_pending, interlockedCompareExchange, hz, h1] at hp
        exact Or.inl hp
  · intro p hp
    cases postOk <;>
      simp only [on_completion, postQueuedCompletionStatus,
        win_iocp_operation.completionKey, if_true, if_false,
        List.mem_append, List.mem_singleton] at hp
    · exact Or.inl hp
    · rcases hp with hp | rfl
      · exact Or.inl hp
      · exact Or.inr rfl
  · intro p hp
    cases postOk <;>
      simp only [on_completion_ec, postQueuedCompletionStatus,
        win_iocp_operation.completionKey, if_true, if_false,
        List.mem_append, List.mem_singleton] at hp
    · exact Or.inl hp
    · rcases hp with hp | rfl
      · exact Or.inl hp
      · exact Or.inr rfl
  · intro hk
    simp [decode, hk]
  · intro hk
    simp [decode, hk]

/-- Witness for completion_key_sole_source_of_truth at concrete inputs: the
packet posted by on_completion on an empty engine satisfies the key
invariant, and the decode equations hold at keys 1 and 0. -/
theorem completion_key_sole_source_of_truth_witness :
    ((0 : Nat) = overlapped_contains_result →
      (decode (win_iocp_operation.mk_op 2) 0 4 9).2 =
        (⟨(win_iocp_operation.mk_op 2).Offset,
          (win_iocp_operation.mk_op 2).Internal⟩,
          (win_iocp_operation.mk_op 2).OffsetHigh)) ∧
    ((0 : Nat) ≠ overlapped_contains_result →
      (decode (win_iocp_operation.mk_op 2) 0 4 9).2 =
        (decode (win_iocp_operation.mk_op 8) 0 4 9).2 ∧
      (decode (win_iocp_operation.mk_op 2) 0 4 9).2 =
        (⟨4, system_category_id⟩, 9)) ∧
    (∀ p, p ∈ (on_completion ⟨[], [], 0⟩ (win_iocp_operation.mk_op 2)
        4 9 true).1.port →
      p ∈ ([] : List Packet) ∨ p.key = p.op.completionKey_) := by
  have h := completion_key_sole_source_of_truth ⟨[], [], 0⟩
    (win_iocp_operation.mk_op 2) (win_iocp_operation.mk_op 8)
    4 9 ⟨0, 0⟩ true 0 4 9 [] (fun _ => true)
  exact ⟨h.2.2.2.2.2.1, h.2.2.2.2.2.2, h.2.2.1⟩

/-- C4: starting from an empty fallback queue, running on_completion (or
post_deferred_completion) with a successful post, versus running it with an
exhausted post and then draining the fallback queue with a successful
re-post, leaves the port with identical contents packet for packet; the
re-post uses the stored completion key, so the wait loop and hence the
handler receive identical error and byte-count payloads on both paths. -/
theorem fallback_drain_preserves_result
    (ctx : win_iocp_io_context) (op : win_iocp_operation) (le bt : Nat)
    (hfb : ctx.completed_ops_ = []) :
    ((on_completion ctx op le bt true).1.port =
      (drain_fallback (on_completion ctx op le bt false).1
        (fun _ => true)).port) ∧
    ((post_deferred_completion ctx op true).1.port =
      (drain_fallback (post_deferred_completion ctx op false).1
        (fun _ => true)).port) ∧
    ((on_completion ctx op le bt true).1.port.map dequeue_payload =
      (drain_fallback (on_completion ctx op le bt false).1
        (fun _ => true)).port.map dequeue_payload) := by
  have h1 : (on_completion ctx op le bt true).1.port =
      (drain_fallback (on_completion ctx op le bt false).1
        (fun _ => true)).port := by
    simp [on_completion, postQueuedCompletionStatus, drain_fallback,
      post_deferred_completions, win_iocp_operation.completionKey, hfb]
  have h2 : (post_deferred_completion ctx op true).1.port =
      (drain_fallback (post_deferred_completion ctx op false).1
        (fun _ => true)).port := by
    simp [post_deferred_completion, postQueuedCompletionStatus,
      drain_fallback, post_deferred_completions,
      win_iocp_operation.completionKey, hfb]
  exact ⟨h1, h2, by rw [h1]⟩

/-- Witness for fallback_drain_preserves_result on an empty engine with a
concrete descriptor and result. -/
theorem fallback_drain_preserves_result_witness :
    (on_completion ⟨[], [], 0⟩ (win_iocp_operation.mk_op 1) 4 9 true).1.port =
      (drain_fallback
        (on_completion ⟨[], [], 0⟩ (win_iocp_operation.mk_op 1) 4 9 false).1
        (fun _ => true)).port :=
  (fallback_drain_preserves_result ⟨[], [], 0⟩ (win_iocp_operation.mk_op 1)
    4 9 rfl).1

/-
Protocol model for the exactly-once dispatch guarantee.  The wait loop
(win_iocp_io_context::do_one) is outside the patch, so its dequeue and drain
steps are modelled from the spec; the three entry calls mirror the patched
functions above, acting on a shared single descriptor (pointer semantics).
Concurrency is rendered as nondeterministic interleaving of atomic steps, and
the kernel post outcome is a nondeterministic choice at each posting step.
-/

/-- The three software entry calls of the dispatch protocol, the completion
one carrying its out-of-band result. -/
inductive EntryCall where
  | deferred : EntryCall
  | pending : EntryCall
  | completion : Nat → Nat → EntryCall
deriving DecidableEq, Repr

/-- One port packet as the wait loop sees it for the single descriptor: the
dequeue status, the byte count, and the completion key (the descriptor
itself is shared state; the kernel hands back its pointer). -/
structure PortEntry where
  err : Nat
  bytes : Nat
  key : Nat
deriving DecidableEq, Repr

/-- Protocol-model state for one descriptor: the descriptor fields, whether
the kernel still owes a hardware completion packet, the not-yet-executed
software entry call, the port packets for this descriptor, the fallback and
dispatch-required bits, the count of handler invocations, and the payload
(category, error value, byte count) of the last invocation. -/
structure Sys where
  op : win_iocp_operation
  hwOut : Bool
  call : Option EntryCall
  pkt : List PortEntry
  fb : Bool
  dr : Bool
  done : Nat
  delivered : Option (Nat × Nat × Nat)
deriving DecidableEq, Repr

/-- post_deferred_completion acting on the protocol-model state: flag ready,
post with the stored key, fall back on exhaustion. -/
def stepDeferred (s : Sys) (ok : Bool) : Sys :=
  let op1 := { s.op with ready_ := 1 }
  if ok then
    { s with
        op := op1
        call := none
        pkt := s.pkt ++ [⟨0, 0, op1.completionKey_⟩] }
  else
    { s with op := op1, call := none, fb := true, dr := true }

/-- on_pending acting on the protocol-model state: the ready claim, then on a
failed claim the RESULT_STORED tag and the post. -/
def stepPending (s : Sys) (ok : Bool) : Sys :=
  let icx := interlockedCompareExchange s.op.ready_ 1 0
  let op1 := { s.op with ready_ := icx.2 }
  if icx.1 = 1 then
    let op2 := { op1 with completionKey_ := overlapped_contains_result }
    if ok then
      { s with
          op := op2
          call := none
          pkt := s.pkt ++ [⟨0, 0, op2.completionKey_⟩] }
    else
      { s with op := op2, call := none, fb := true, dr := true }
  else
    { s with op := op1, call := none }

/-- on_completion acting on the protocol-model state: flag ready, store the
result, tag RESULT_STORED, post. -/
def stepCompletion (s : Sys) (le bt : Nat) (ok : Bool) : Sys :=
  let op1 := { s.op with
    ready_ := 1
    Internal := system_category_id
    Offset := le
    OffsetHigh := bt
    completionKey_ := overlapped_contains_result }
  if ok then
    { s with
        op := op1
        call := none
        pkt := s.pkt ++ [⟨0, 0, overlapped_contains_result⟩] }
  else
    { s with op := op1, call := none, fb := true, dr := true }

/-- Modelled from the spec: a wait-loop thread dequeues one packet (the body
of do_one).  Decode runs first: with key RESULT_STORED the payload is the
stored result fields; with any other key the OS data is saved into the
result fields and is the payload.  The handler then runs only when the ready
compare-exchange finds the flag already at 1; otherwise the flag is raised
and the packet dropped, the enqueue duty staying with the pending software
call. -/
def stepDequeue (s : Sys) (e : PortEntry) (rest : List PortEntry) : Sys :=
  if e.key = overlapped_contains_result then
    let payload := (s.op.Internal, s.op.Offset, s.op.OffsetHigh)
    let icx := interlockedCompareExchange s.op.ready_ 1 0
    let op1 := { s.op with ready_ := icx.2 }
    if icx.1 = 1 then
      { s with
          op := op1
          pkt := rest
          done := s.done + 1
          delivered := some payload }
    else
      { s with op := op1, pkt := rest }
  else
    let op1 := { s.op with
      Internal := system_category_id
      Offset := e.err
      OffsetHigh := e.bytes }
    let icx := interlockedCompareExchange op1.ready_ 1 0
    let op2 := { op1 with ready_ := icx.2 }
    if icx.1 = 1 then
      { s with
          op := op2
          pkt := rest
          done := s.done + 1
          delivered := some (system_category_id, e.err, e.bytes) }
    else
      { s with op := op2, pkt := rest }

/-- Modelled from the spec: a wait-loop thread observes the dispatch-required
signal, claims it, detaches the fallback queue and re-posts its contents
with the stored completion key (post_deferred_completions); a failing
re-post returns the descriptor to the fallback queue with the signal raised
again. -/
def stepDrain (s : Sys) (ok : Bool) : Sys :=
  if s.fb then
    let op1 := { s.op with ready_ := 1 }
    if ok then
      { s with
          op := op1
          fb := false
          dr := false
          pkt := s.pkt ++ [⟨0, 0, op1.completionKey_⟩] }
    else
      { s with op := op1, fb := true, dr := true }
  else
    { s with dr := false }

/-- One interleaved step of the protocol: the hardware completion lands on
the port (with the registration key 0 and the genuine status hwe and byte
count hwb), a software entry call runs, a wait-loop thread dequeues the head
packet, or a wait-loop thread drains the fallback queue. -/
inductive Step (hwe hwb : Nat) : Sys → Sys → Prop where
  | hw (s : Sys) : s.hwOut = true →
      Step hwe hwb s { s with hwOut := false, pkt := s.pkt ++ [⟨hwe, hwb, 0⟩] }
  | deferred (s : Sys) (ok : Bool) : s.call = some EntryCall.deferred →
      Step hwe hwb s (stepDeferred s ok)
  | pending (s : Sys) (ok : Bool) : s.call = some EntryCall.pending →
      Step hwe hwb s (stepPending s ok)
  | completion (s : Sys) (le bt : Nat) (ok : Bool) :
      s.call = some (EntryCall.completion le bt) →
      Step hwe hwb s (stepCompletion s le bt ok)
  | dequeue (s : Sys) (e : PortEntry) (rest : List PortEntry) :
      s.pkt = e :: rest →
      Step hwe hwb s (stepDequeue s e rest)
  | drain (s : Sys) (ok : Bool) : s.dr = true →
      Step hwe hwb s (stepDrain s ok)

/-- Reflexive-transitive closure of the protocol step relation. -/
inductive Reach (hwe hwb : Nat) : Sys → Sys → Prop where
  | refl (s : Sys) : Reach hwe hwb s s
  | tail (s t u : Sys) : Reach hwe hwb s t → Step hwe hwb t u →
      Reach hwe hwb s u

/-- The state in which a descriptor enters the dispatch engine: the entry
call about to run, the hardware completion outstanding exactly in the
pending scenario, everything else empty. -/
def initSys (c : EntryCall) (op0 : win_iocp_operation) : Sys :=
  { op := op0
    hwOut := match c with | EntryCall.pending => true | _ => false
    call := some c
    pkt := []
    fb := false
    dr := false
    done := 0
    delivered := none }

/-- A step can fire only when a hardware completion is outstanding, an entry
call is pending, a packet sits on the port, or the dispatch-required signal
is raised. -/
def Enabled (s : Sys) : Prop :=
  s.hwOut = true ∨ s.call ≠ none ∨ s.pkt ≠ [] ∨ s.dr = true

/-- Descriptor contents after a result (error value v, byte count b, the
system category) has been stored in the OVERLAPPED fields and the ready flag
raised. -/
def opWithResult (op0 : win_iocp_operation) (v b : Nat) : win_iocp_operation :=
  { op0 with
    ready_ := 1
    Internal := system_category_id
    Offset := v
    OffsetHigh := b }

/-- opWithResult additionally tagged RESULT_STORED. -/
def opWithResultTagged (op0 : win_iocp_operation) (v b : Nat) :
    win_iocp_operation :=
  { opWithResult op0 v b with
      completionKey_ := overlapped_contains_result }

/-- The inductive invariant of the protocol: an explicit list of the states
reachable from each entry scenario.  In the pending scenario the descriptor
enters with ready flag 0, as left by reset before submission. -/
def Inv : EntryCall → win_iocp_operation → Nat → Nat → Sys → Prop
  | EntryCall.deferred, op0, _, _, s =>
      s = ⟨op0, false, some EntryCall.deferred, [], false, false, 0, none⟩ ∨
      s = ⟨{ op0 with ready_ := 1 }, false, none,
            [⟨0, 0, op0.completionKey_⟩], false, false, 0, none⟩ ∨
      s = ⟨{ op0 with ready_ := 1 }, false, none, [], true, true, 0, none⟩ ∨
      (op0.completionKey_ = overlapped_contains_result ∧
        s = ⟨{ op0 with ready_ := 1 }, false, none, [], false, false, 1,
              some (op0.Internal, op0.Offset, op0.OffsetHigh)⟩) ∨
      (op0.completionKey_ ≠ overlapped_contains_result ∧
        s = ⟨opWithResult { op0 with ready_ := 1 } 0 0, false, none, [],
              false, false, 1, some (system_category_id, 0, 0)⟩)
  | EntryCall.pending, op0, hwe, hwb, s =>
      op0.ready_ = 0 ∧
      (s = ⟨op0, true, some EntryCall.pending, [], false, false, 0, none⟩ ∨
       s = ⟨{ op0 with ready_ := 1 }, true, none, [], false, false, 0, none⟩ ∨
       s = ⟨op0, false, some EntryCall.pending, [⟨hwe, hwb, 0⟩], false, false,
             0, none⟩ ∨
       s = ⟨{ op0 with ready_ := 1 }, false, none, [⟨hwe, hwb, 0⟩], false,
             false, 0, none⟩ ∨
       s = ⟨opWithResult op0 hwe hwb, false, some EntryCall.pending, [],
             false, false, 0, none⟩ ∨
       s = ⟨opWithResultTagged op0 hwe hwb, false, none,
             [⟨0, 0, overlapped_contains_result⟩], false, false, 0, none⟩ ∨
       s = ⟨opWithResultTagged op0 hwe hwb, false, none, [], true, true, 0,
             none⟩ ∨
       s = ⟨opWithResult op0 hwe hwb, false, none, [], false, false, 1,
             some (system_category_id, hwe, hwb)⟩ ∨
       s = ⟨opWithResultTagged op0 hwe hwb, false, none, [], false, false, 1,
             some (system_category_id, hwe, hwb)⟩)
  | EntryCall.completion le bt, op0, _, _, s =>
      s = ⟨op0, false, some (EntryCall.completion le bt), [], false, false,
            0, none⟩ ∨
      s = ⟨opWithResultTagged op0 le bt, false, none,
            [⟨0, 0, overlapped_contains_result⟩], false, false, 0, none⟩ ∨
      s = ⟨opWithResultTagged op0 le bt, false, none, [], true, true, 0,
            none⟩ ∨
      s = ⟨opWithResultTagged op0 le bt, false, none, [], false, false, 1,
            some (system_category_id, le, bt)⟩

/-- The entry state of every scenario satisfies the invariant (the pending
scenario requires the descriptor to enter with ready flag 0). -/
theorem inv_init (c : EntryCall) (op0 : win_iocp_operation) (hwe hwb : Nat)
    (h0 : c = EntryCall.pending → op0.ready_ = 0) :
    Inv c op0 hwe hwb (initSys c op0) := by
  cases c with
  | deferred => exact Or.inl rfl
  | pending => exact ⟨h0 rfl, Or.inl rfl⟩
  | completion le bt => exact Or.inl rfl

/-- Every protocol step preserves the invariant. -/
theorem inv_step (c : EntryCall) (op0 : win_iocp_operation) (hwe hwb : Nat)
    (s t : Sys) (hinv : Inv c op0 hwe hwb s) (hst : Step hwe hwb s t) :
    Inv c op0 hwe hwb t := by
  cases c with
  | deferred =>
      rcases hinv with h | h | h | ⟨hk, h⟩ | ⟨hk, h⟩ <;> subst h
      · cases hst with
        | hw hc => simp at hc
        | pending ok hc => simp at hc
        | completion le bt ok hc => simp at hc
        | dequeue e rest hc => simp at hc
        | drain ok hc => simp at hc
        | deferred ok hc =>
            cases ok
            · exact Or.inr (Or.inr (Or.inl rfl))
            · exact Or.inr (Or.inl rfl)
      · cases hst with
        | hw hc => simp at hc
        | pending ok hc => simp at hc
        | completion le bt ok hc => simp at hc
        | deferred ok hc => simp at hc
        | drain ok hc => simp at hc
        | dequeue e rest hc =>
            injection hc with h1 h2
            subst h1
            subst h2
            by_cases hkey :
              op0.completionKey_ = overlapped_contains_result
            · refine Or.inr (Or.inr (Or.inr (Or.inl ⟨hkey, ?_⟩)))
              simp [stepDequeue, interlockedCompareExchange, hkey]
            · refine Or.inr (Or.inr (Or.inr (Or.inr ⟨hkey, ?_⟩)))
              simp [stepDequeue, interlockedCompareExchange, hkey,
                opWithResult]
      · cases hst with
        | hw hc => simp at hc
        | pending ok hc => simp at hc
        | completion le bt ok hc => simp at hc
        | deferred ok hc => simp at hc
        | dequeue e rest hc => simp at hc
        | drain ok hc =>
            cases ok
            · exact Or.inr (Or.inr (Or.inl rfl))
            · exact Or.inr (Or.inl rfl)
      · cases hst with
        | hw hc => simp at hc
        | pending ok hc => simp at hc
        | completion le bt ok hc => simp at hc
        | deferred ok hc => simp at hc
        | dequeue e rest hc => simp at hc
        | drain ok hc => simp at hc
      · cases hst with
        | hw hc => simp at hc
        | pending ok hc => simp at hc
        | completion le bt ok hc => simp at hc
        | deferred ok hc => simp at hc
        | dequeue e rest hc => simp at hc
        | drain ok hc => simp at hc
  | pending =>
      obtain ⟨hready, hph⟩ := hinv
      refine ⟨hready, ?_⟩
      rcases hph with h | h | h | h | h | h | h | h | h <;> subst h
      · cases hst with
        | hw hc => exact Or.inr (Or.inr (Or.inl rfl))
        | deferred ok hc => simp at hc
        | completion le bt ok hc => simp at hc
        | dequeue e rest hc => simp at hc
        | drain ok hc => simp at hc
        | pending ok hc =>
            refine Or.inr (Or.inl ?_)
            simp [stepPending, interlockedCompareExchange, hready]
      · cases hst with
        | hw hc => exact Or.inr (Or.inr (Or.inr (Or.inl rfl)))
        | deferred ok hc => simp at hc
        | pending ok hc => simp at hc
        | completion le bt ok hc => simp at hc
        | dequeue e rest hc => simp at hc
        | drain ok hc => simp at hc
      · cases hst with
        | hw hc => simp at hc
        | deferred ok hc => simp at hc
        | completion le bt ok hc => simp at hc
        | drain ok hc => simp at hc
        | pending ok hc =>
            refine Or.inr (Or.inr (Or.inr (Or.inl ?_)))
            simp [stepPending, interlockedCompareExchange, hready]
        | dequeue e rest hc =>
            injection hc with h1 h2
            subst h1
            subst h2
            refine Or.inr (Or.inr (Or.inr (Or.inr (Or.inl ?_))))
            simp [stepDequeue, interlockedCompareExchange, hready,
              overlapped_contains_result, opWithResult]
      · cases hst with
        | hw hc => simp at hc
        | deferred ok hc => simp at hc
        | pending ok hc => simp at hc
        | completion le bt ok hc => simp at hc
        | drain ok hc => simp at hc
        | dequeue e rest hc =>
            injection hc with h1 h2
            subst h1
            subst h2
            refine Or.inr (Or.inr (Or.inr (Or.inr (Or.inr (Or.inr
              (Or.inr (Or.inl ?_)))))))
            simp [stepDequeue, interlockedCompareExchange,
              overlapped_contains_result, opWithResult]
      · cases hst with
        | hw hc => simp at hc
        | deferred ok hc => simp at hc
        | completion le bt ok hc => simp at hc
        | dequeue e rest hc => simp at hc
        | drain ok hc => simp at hc
        | pending ok hc =>
            cases ok
            · refine Or.inr (Or.inr (Or.inr (Or.inr (Or.inr (Or.inr
                (Or.inl ?_))))))
              simp [stepPending, interlockedCompareExchange, opWithResult,
                opWithResultTagged]
            · refine Or.inr (Or.inr (Or.inr (Or.inr (Or.inr (Or.inl ?_)))))
              simp [stepPending, interlockedCompareExchange, opWithResult,
                opWithResultTagged]
      · cases hst with
        | hw hc => simp at hc
        | deferred ok hc => simp at hc
        | pending ok hc => simp at hc
        | completion le bt ok hc => simp at hc
        | drain ok hc => simp at hc
        | dequeue e rest hc =>
            injection hc with h1 h2
            subst h1
            subst h2
            refine Or.inr (Or.inr (Or.inr (Or.inr (Or.inr (Or.inr (Or.inr
              (Or.inr ?_)))))))
            simp [stepDequeue, interlockedCompareExchange,
              opWithResultTagged, opWithResult]
      · cases hst with
        | hw hc => simp at hc
        | deferred ok hc => simp at hc
        | pending ok hc => simp at hc
        | completion le bt ok hc => simp at hc
        | dequeue e rest hc => simp at hc
        | drain ok hc =>
            cases ok
            · refine Or.inr (Or.inr (Or.inr (Or.inr (Or.inr (Or.inr
                (Or.inl ?_))))))
              simp [stepDrain, opWithResultTagged, opWithResult]
            · refine Or.inr (Or.inr (Or.inr (Or.inr (Or.inr (Or.inl ?_)))))
              simp [stepDrain, opWithResultTagged, opWithResult]
      · cases hst with
        | hw hc => simp at hc
        | deferred ok hc => simp at hc
        | pending ok hc => simp at hc
        | completion le bt ok hc => simp at hc
        | dequeue e rest hc => simp at hc
        | drain ok hc => simp at hc
      · cases hst with
        | hw hc => simp at hc
        | deferred ok hc => simp at hc
        | pending ok hc => simp at hc
        | completion le bt ok hc => simp at hc
        | dequeue e rest hc => simp at hc
        | drain ok hc => simp at hc
  | completion le bt =>
      rcases hinv with h | h | h | h <;> subst h
      · cases hst with
        | hw hc => simp at hc
        | deferred ok hc => simp at hc
        | pending ok hc => simp at hc
        | dequeue e rest hc => simp at hc
        | drain ok hc => simp at hc
        | completion le2 bt2 ok hc =>
            injection hc with hc2
            injection hc2 with h1 h2
            subst h1
            subst h2
            cases ok
            · refine Or.inr (Or.inr (Or.inl ?_))
              simp [stepCompletion, opWithResultTagged, opWithResult]
            · refine Or.inr (Or.inl ?_)
              simp [stepCompletion, opWithResultTagged, opWithResult]
      · cases hst with
        | hw hc => simp at hc
        | deferred ok hc => simp at hc
        | pending ok hc => simp at hc
        | completion le2 bt2 ok hc => simp at hc
        | drain ok hc => simp at hc
        | dequeue e rest hc =>
            injection hc with h1 h2
            subst h1
            subst h2
            refine Or.inr (Or.inr (Or.inr ?_))
            simp [stepDequeue, interlockedCompareExchange,
              opWithResultTagged, opWithResult]
      · cases hst with
        | hw hc => simp at hc
        | deferred ok hc => simp at hc
        | pending ok hc => simp at hc
        | completion le2 bt2 ok hc => simp at hc
        | dequeue e rest hc => simp at hc
        | drain ok hc =>
            cases ok
            · refine Or.inr (Or.inr (Or.inl ?_))
              simp [stepDrain, opWithResultTagged, opWithResult]
            · refine Or.inr (Or.inl ?_)
              simp [stepDrain, opWithResultTagged, opWithResult]
      · cases hst with
        | hw hc => simp at hc
        | deferred ok hc => simp at hc
        | pending ok hc => simp at hc
        | completion le2 bt2 ok hc => simp at hc
        | dequeue e rest hc => simp at hc
        | drain ok hc => simp at hc

/-- The invariant holds in every state reachable from the entry state. -/
theorem inv_reach (c : EntryCall) (op0 : win_iocp_operation) (hwe hwb : Nat)
    (h0 : c = EntryCall.pending → op0.ready_ = 0) (s : Sys)
    (hr : Reach hwe hwb (initSys c op0) s) : Inv c op0 hwe hwb s := by
  induction hr with
  | refl => exact inv_init c op0 hwe hwb h0
  | tail t u hr hst ih => exact inv_step c op0 hwe hwb t u ih hst

/-- A step can only fire from an enabled state, so a disabled state is
genuinely quiescent. -/
theorem step_needs_enabled (hwe hwb : Nat) (s t : Sys)
    (hst : Step hwe hwb s t) : Enabled s := by
  cases hst with
  | hw hc => exact Or.inl hc
  | deferred ok hc => exact Or.inr (Or.inl (by simp [hc]))
  | pending ok hc => exact Or.inr (Or.inl (by simp [hc]))
  | completion le bt ok hc => exact Or.inr (Or.inl (by simp [hc]))
  | dequeue e rest hc => exact Or.inr (Or.inr (Or.inl (by simp [hc])))
  | drain ok hc => exact Or.inr (Or.inr (Or.inr hc))

/-- What the invariant yields: at most one invocation; a quiescent state has
exactly one; the delivered payload is the result fields as stored in the
descriptor; and in the completion and pending scenarios the payload is the
injected result and the hardware result respectively. -/
theorem inv_consequences (c : EntryCall) (op0 : win_iocp_operation)
    (hwe hwb : Nat) (s : Sys) (hinv : Inv c op0 hwe hwb s) :
    s.done ≤ 1 ∧
    (¬ Enabled s → s.done = 1) ∧
    (s.done = 1 →
      s.delivered = some (s.op.Internal, s.op.Offset, s.op.OffsetHigh)) ∧
    (∀ le bt, c = EntryCall.completion le bt → s.done = 1 →
      s.delivered = some (system_category_id, le, bt)) ∧
    (c = EntryCall.pending → s.done = 1 →
      s.delivered = some (system_category_id, hwe, hwb)) := by
  cases c with
  | deferred =>
      rcases hinv with h | h | h | ⟨hk, h⟩ | ⟨hk, h⟩ <;> subst h <;>
        simp [Enabled, opWithResult, opWithResultTagged]
  | pending =>
      obtain ⟨hready, hph⟩ := hinv
      rcases hph with h | h | h | h | h | h | h | h | h <;> subst h <;>
        simp [Enabled, opWithResult, opWithResultTagged]
  | completion le bt =>
      rcases hinv with h | h | h | h <;> subst h <;>
        simp [Enabled, opWithResult, opWithResultTagged]

/-- C8: in the interleaved protocol model, from any of the three entry
scenarios (the pending one entered with ready flag 0, as reset leaves it)
every reachable state shows at most one handler invocation; a reachable
state from which no step can fire (nothing outstanding at the hardware, no
entry call pending, no packet on the port, no dispatch-required signal; and
a step needs one of these) has exactly one invocation; the payload of the
invocation is the result fields stored in the descriptor; and in the
completion and pending scenarios that payload is exactly the injected result
and the hardware result.  Eventual delivery under unbounded consecutive
exhaustion is a fairness assumption: the fallback cycle then repeats, which
is a non-quiescent state, consistent with this rendering. -/
theorem handler_invoked_exactly_once
    (c : EntryCall) (op0 : win_iocp_operation) (hwe hwb : Nat) (s : Sys)
    (h0 : c = EntryCall.pending → op0.ready_ = 0)
    (hr : Reach hwe hwb (initSys c op0) s) :
    (s.done ≤ 1 ∧
      (¬ Enabled s → s.done = 1) ∧
      (s.done = 1 →
        s.delivered = some (s.op.Internal, s.op.Offset, s.op.OffsetHigh)) ∧
      (∀ le bt, c = EntryCall.completion le bt → s.done = 1 →
        s.delivered = some (system_category_id, le, bt)) ∧
      (c = EntryCall.pending → s.done = 1 →
        s.delivered = some (system_category_id, hwe, hwb))) ∧
    (∀ t, Step hwe hwb s t → Enabled s) :=
  ⟨inv_consequences c op0 hwe hwb s (inv_reach c op0 hwe hwb h0 s hr),
   fun t hst => step_needs_enabled hwe hwb s t hst⟩

/-- Witness for handler_invoked_exactly_once: the completion scenario at a
concrete descriptor and result, evaluated at the entry state and at the
quiescent state reached by running the entry call and the dequeue. -/
theorem handler_invoked_exactly_once_witness :
    (stepDequeue (stepCompletion
        (initSys (EntryCall.completion 4 9) (win_iocp_operation.mk_op 6))
        4 9 true) ⟨0, 0, overlapped_contains_result⟩ []).done ≤ 1 :=
  (handler_invoked_exactly_once (EntryCall.completion 4 9)
    (win_iocp_operation.mk_op 6) 0 0
    (stepDequeue (stepCompletion
        (initSys (EntryCall.completion 4 9) (win_iocp_operation.mk_op 6))
        4 9 true) ⟨0, 0, overlapped_contains_result⟩ [])
    (by decide)
    (Reach.tail _ _ _
      (Reach.tail _ _ _ (Reach.refl _)
        (Step.completion
          (initSys (EntryCall.completion 4 9) (win_iocp_operation.mk_op 6))
          4 9 true rfl))
      (Step.dequeue
        (stepCompletion
          (initSys (EntryCall.completion 4 9) (win_iocp_operation.mk_op 6))
          4 9 true)
        ⟨0, 0, overlapped_contains_result⟩ [] (by decide)))).1.1

end WinIocp
